import Mathlib

/-!
Verification of the marabunta migration-descriptor parser
(`src/marabunta/parser.py`) against its natural-language specification.

The parser is shallowly embedded: YAML documents become the inductive
type `Yaml`, Python truthiness becomes `Yaml.truthy`, and each method of
`YamlParser` becomes a Lean function returning `Except Err _`.  The data
model (`Migration`, `MigrationOption`, `Version`, `Operation`) and the
database collaborator live in repository modules that are not part of
the parser source; they are modelled from the specification, as marked
on each of those definitions.
-/

namespace Marabunta

/-- A parsed YAML document, as produced by a safe YAML loader: mappings
(with string keys, as used by the descriptor format), sequences, and
scalars.  `null` also stands for Python `None` (an absent value). -/
inductive Yaml where
  | null : Yaml
  | bool (b : Bool) : Yaml
  | int (n : Int) : Yaml
  | str (s : String) : Yaml
  | seq (xs : List Yaml) : Yaml
  | map (kvs : List (String × Yaml)) : Yaml

/-- Python truthiness of a value: `None`, `False`, `0`, `""`, `[]` and
`{}` are falsy, everything else is truthy. -/
def Yaml.truthy : Yaml → Bool
  | Yaml.null => false
  | Yaml.bool b => b
  | Yaml.int n => decide (n ≠ 0)
  | Yaml.str s => !s.isEmpty
  | Yaml.seq xs => !xs.isEmpty
  | Yaml.map kvs => !kvs.isEmpty

/-- Association-list lookup; Python dictionaries have unique keys, so
taking the first binding is exact on the image of a YAML loader. -/
def lookupY : List (String × Yaml) → String → Option Yaml
  | [], _ => none
  | p :: rest, k => if p.1 = k then some p.2 else lookupY rest k

/-- Python `d.get(k)`: the bound value, or `None` when the key is absent. -/
def optGet (kvs : List (String × Yaml)) (k : String) : Yaml :=
  (lookupY kvs k).getD Yaml.null

/-- Python `d.get(k, default)`: the bound value (even when it is `None`),
or `default` when the key is absent. -/
def optGetD (kvs : List (String × Yaml)) (k : String) (d : Yaml) : Yaml :=
  (lookupY kvs k).getD d

/-- Python `a or b` on document values (truthiness-based choice). -/
def pyOr (a b : Yaml) : Yaml :=
  if a.truthy then a else b

/-- The errors the parser can signal.  `configurationError` is
`ConfigurationError`, `parseError` is `ParseError` (the spec calls it
SchemaError) carrying its message and the attached example document, and
`pythonError` stands for an uncaught Python runtime exception
(e.g. `AttributeError` from calling a `dict`/`str` method on another
type). -/
inductive Err where
  | configurationError (msg : String) : Err
  | parseError (msg : String) (ex : String) : Err
  | pythonError (msg : String) : Err

/-- Modelled from the spec: the external configuration provider
(`marabunta.config.Config`, not under `src/`).  It exposes the optional
override fields `odoo_cmd`, `odoo_args`, `odoo_addons_path`, plus
whatever the database descriptor builder needs, abstracted here as the
DSN it would produce. -/
structure Config where
  odoo_cmd : Option String
  odoo_args : Option String
  odoo_addons_path : Option String
  db_dsn : String

/-- An optional external-configuration string as a document-level value:
`None` maps to `null`, a string to itself (so truthiness agrees with
Python). -/
def strOpt : Option String → Yaml
  | none => Yaml.null
  | some s => Yaml.str s

/-- Modelled from the spec: the database descriptor builder
(`marabunta.database.Database`, not under `src/`) derives a DSN from the
external configuration; the call is opaque to the parser. -/
def Database.dsn (config : Config) : String :=
  config.db_dsn

/-- Modelled from the spec: an Operation is an opaque command value
copied verbatim from the document (`marabunta.model`, not under
`src/`). -/
structure Operation where
  command : Yaml

/-- Modelled from the spec: the resolved option set — command, tokenized
argument list, DSN, addons path (`marabunta.model.MigrationOption`, not
under `src/`). -/
structure MigrationOption where
  odoo_cmd : Yaml
  odoo_args : List String
  odoo_dsn : String
  odoo_addons_path : Yaml

/-- Modelled from the spec: one version entry of the plan
(`marabunta.model.Version`, not under `src/`): an opaque identifier, the
shared options, and ordered collections of actions scoped by
(phase-or-kind, mode).  `operations` holds `(phase, mode, operation)`
triples and `addons` holds `(kind, mode, addon-name)` triples, both in
insertion order; `mode = none` is the base scope. -/
structure Version where
  number : Yaml
  options : MigrationOption
  operations : List (String × Option String × Operation)
  addons : List (String × Option String × Yaml)

/-- Modelled from the spec: `Version.add_operation` appends one
operation to the (phase, mode) bucket. -/
def Version.add_operation (v : Version) (operation_type : String)
    (op : Operation) (mode : Option String) : Version :=
  { v with operations := v.operations ++ [(operation_type, mode, op)] }

/-- Modelled from the spec: `Version.add_upgrade_addons` appends the
addon names, in order, to the (upgrade, mode) bucket. -/
def Version.add_upgrade_addons (v : Version) (names : List Yaml)
    (mode : Option String) : Version :=
  { v with addons := v.addons ++ names.map (fun n => (("upgrade" : String), mode, n)) }

/-- Modelled from the spec: `Version.add_install_addons` appends the
addon names, in order, to the (install, mode) bucket. -/
def Version.add_install_addons (v : Version) (names : List Yaml)
    (mode : Option String) : Version :=
  { v with addons := v.addons ++ names.map (fun n => (("install" : String), mode, n)) }

/-- Modelled from the spec: `Version.add_remove_addons` appends the
addon names, in order, to the (remove, mode) bucket. -/
def Version.add_remove_addons (v : Version) (names : List Yaml)
    (mode : Option String) : Version :=
  { v with addons := v.addons ++ names.map (fun n => (("remove" : String), mode, n)) }

/-- Modelled from the spec: the migration plan — the ordered list of
versions (`marabunta.model.Migration`, not under `src/`). -/
structure Migration where
  versions : List Version

/-- The canonical reference example document attached to every
`ParseError` (the module-level `YAML_EXAMPLE` constant of the source). -/
def YAML_EXAMPLE : String :=
  "\nmigration:\n  options:\n    # --workers=0 --stop-after-init --no-xmlrpc are automatically added\n    # This options are overriden by corresponding command line arguments\n    odoo_cmd: odoo\n    odoo_args: --log-level=debug\n  versions:\n    - version: 0.0.1\n      operations:\n        pre:  # executed before \x27addons\x27\n          - echo \x27pre-operation\x27\n        post:  # executed after \x27addons\x27\n          - anthem songs::install\n      addons:\n        upgrade:  # executed with -u flag ...\n          - base\n        install:  # executed with -i flag ...\n          - document\n        # remove:  # uninstalled with a python script\n      modes:\n        prod:\n          operations:\n            pre:\n              - echo \x27pre-operation executed only when the mode is prod\x27\n            post:\n              - anthem songs::load_production_data\n        demo:\n          operations:\n            post:\n              - anthem songs::load_demo_data\n          addons:\n            upgrade:\n              - demo_addon\n\n    - version: 0.0.2\n      # nothing to do\n\n    - version: 0.0.3\n      operations:\n        pre:\n          - echo \x27foobar\x27\n          - ls\n          - bin/script_test.sh\n        post:\n          - echo \x27post-op\x27\n\n    - version: 0.0.4\n      addons:\n        upgrade:\n          - popeye\n\n"

/-- Python `repr` of one string inside a list: surrounded by single
quotes (as in `['delete']`). -/
def pyQuote (s : String) : String :=
  "\x27" ++ s ++ "\x27"

/-- The comma-separated interior of the Python `repr` of a list of
strings. -/
def pyInner : List String → String
  | [] => ""
  | [s] => pyQuote s
  | s :: t :: rest => pyQuote s ++ ", " ++ pyInner (t :: rest)

/-- Python `repr` of a list of strings, e.g. `['upgrade', 'install']`. -/
def pyListStr (l : List String) : String :=
  "[" ++ pyInner l ++ "]"

/-- Message of the source line
`raise ParseError(u"'{}' key must be a dict".format(dict_name), ...)`
and of the identically shaped literals for `migration` / `modes`. -/
def keyMustBeDictMsg (k : String) : String :=
  "\x27" ++ k ++ "\x27 key must be a dict"

/-- Message of the source lines of shape `"'%s' key must be a list"`. -/
def keyMustBeListMsg (k : String) : String :=
  "\x27" ++ k ++ "\x27 key must be a list"

/-- Message built by `check_dict_expected_keys` for unexpected keys: the
source template is `"u{}: the keys {} are unexpected. (allowed keys: {})"`
formatted with the context name, the extra keys and the allowed keys
(note the stray leading `u` that is part of the literal). -/
def unexpectedKeysMsg (dict_name : String) (extra allowed : List String) : String :=
  "u" ++ dict_name ++ ": the keys " ++ pyListStr extra
    ++ " are unexpected. (allowed keys: " ++ pyListStr allowed ++ ")"

/-- Message of `raise ConfigurationError(u"no marabunta yaml supplied")`. -/
def noYamlMsg : String :=
  "no marabunta yaml supplied"

/-- Message of `raise ParseError(u"'migration' key is missing", ...)`. -/
def migrationMissingMsg : String :=
  "\x27migration\x27 key is missing"

/-- The keys of `kvs` that lie outside the allowed set, in document
order (the source computes `current_keys - expected_keys` on Python
sets; dictionary keys are unique, so the filtered key list carries the
same elements). -/
def keysOutside (kvs : List (String × Yaml)) (expected : List String) : List String :=
  (kvs.map Prod.fst).filter (fun k => !(expected.contains k))

/-- `YamlParser.check_dict_expected_keys`: fail unless `current` is a
mapping whose keys all lie in `expected_keys`; fewer keys than expected
is fine.  On success the mapping's bindings are returned (the source
simply keeps using `current`, which it now knows is a dict). -/
def check_dict_expected_keys (expected_keys : List String) (current : Yaml)
    (dict_name : String) : Except Err (List (String × Yaml)) :=
  match current with
  | Yaml.map kvs =>
    if keysOutside kvs expected_keys = [] then Except.ok kvs
    else Except.error (Err.parseError
      (unexpectedKeysMsg dict_name (keysOutside kvs expected_keys) expected_keys)
      YAML_EXAMPLE)
  | _ => Except.error (Err.parseError (keyMustBeDictMsg dict_name) YAML_EXAMPLE)

/-- Python `str.split()` with no separator argument, on the characters
of the string: split on runs of whitespace, dropping empty tokens.  The
first argument accumulates the current token in reverse. -/
def splitWsAux : List Char → List Char → List String
  | acc, [] => if acc.isEmpty then [] else [String.mk acc.reverse]
  | acc, c :: rest =>
    if c.isWhitespace then
      if acc.isEmpty then splitWsAux [] rest
      else String.mk acc.reverse :: splitWsAux [] rest
    else splitWsAux (c :: acc) rest

/-- Python `s.split()`: tokenize on whitespace. -/
def pySplit (s : String) : List String :=
  splitWsAux [] s.data

/-- Python `d.get(k)` where `d` is only known to be some document value:
an `AttributeError` is raised when it is not a dict. -/
def dictGet (d : Yaml) (k : String) : Except Err Yaml :=
  match d with
  | Yaml.map kvs => Except.ok (optGet kvs k)
  | _ => Except.error (Err.pythonError ("AttributeError: get"))

/-- Exception-propagating fold, the shape of the source's `for` loops
over dictionary items. -/
def foldExcept {α β : Type} (f : β → α → Except Err β) : β → List α → Except Err β
  | b, [] => Except.ok b
  | b, a :: rest =>
    match f b a with
    | Except.ok b2 => foldExcept f b2 rest
    | Except.error e => Except.error e

/-- Exception-propagating map, the shape of the source's list
comprehension over `versions`. -/
def mapExcept {α β : Type} (f : α → Except Err β) : List α → Except Err (List β)
  | [] => Except.ok []
  | a :: rest =>
    match f a with
    | Except.ok b =>
      match mapExcept f rest with
      | Except.ok bs => Except.ok (b :: bs)
      | Except.error e => Except.error e
    | Except.error e => Except.error e

/-- The node the source binds as `options = migration.get('options') or {}`. -/
def optionsNode (migration : List (String × Yaml)) : Yaml :=
  pyOr (optGet migration ("options")) (Yaml.map [])

/-- The source line `odoo_cmd = self.config.odoo_cmd or options.get('odoo_cmd')`,
with Python's short-circuit: the document block is only consulted (and
can only raise) when the external value is falsy. -/
def resolve_cmd (config : Config) (options : Yaml) : Except Err Yaml :=
  if (strOpt config.odoo_cmd).truthy then Except.ok (strOpt config.odoo_cmd)
  else dictGet options ("odoo_cmd")

/-- The shape of the source lines
`self.config.X or options.get('X') or ''` (used for `odoo_args` and
`odoo_addons_path`), with Python's short-circuit. -/
def resolve_str_opt (c : Option String) (options : Yaml) (k : String) :
    Except Err Yaml :=
  if (strOpt c).truthy then Except.ok (strOpt c)
  else
    match dictGet options k with
    | Except.ok docv => Except.ok (pyOr docv (Yaml.str ("")))
    | Except.error e => Except.error e

/-- `YamlParser._parse_options`: resolve each option field with the
precedence external configuration, then document `options` block, then
default; the resolved argument string is tokenized on whitespace
(`odoo_args.split()`, an `AttributeError` when it is not a string). -/
def parse_options (config : Config) (migration : List (String × Yaml)) :
    Except Err MigrationOption :=
  match resolve_cmd config (optionsNode migration) with
  | Except.error e => Except.error e
  | Except.ok odoo_cmd =>
    match resolve_str_opt config.odoo_args (optionsNode migration) ("odoo_args") with
    | Except.error e => Except.error e
    | Except.ok argsVal =>
      match argsVal with
      | Yaml.str argsStr =>
        match resolve_str_opt config.odoo_addons_path (optionsNode migration)
            ("odoo_addons_path") with
        | Except.error e => Except.error e
        | Except.ok odoo_addons_path =>
          Except.ok (MigrationOption.mk odoo_cmd (pySplit argsStr)
            (Database.dsn config) odoo_addons_path)
      | _ => Except.error (Err.pythonError ("AttributeError: split"))

/-- The body of the `for operation_type, commands in operations.items()`
loop of `_parse_operations`: the bound value must be a list, whose
elements are appended, in order, as operations tagged with `mode`. -/
def opStep (mode : Option String) (v : Version) (p : String × Yaml) :
    Except Err Version :=
  match p.2 with
  | Yaml.seq commands =>
    Except.ok (commands.foldl
      (fun v c => v.add_operation p.1 (Operation.mk c) mode) v)
  | _ => Except.error (Err.parseError (keyMustBeListMsg p.1) YAML_EXAMPLE)

/-- `YamlParser._parse_operations`: validate the block's keys against
{pre, post}; each bound value must be a list, whose elements are
appended, in order, as operations tagged with `mode`. -/
def parse_operations (version : Version) (operations : Yaml)
    (mode : Option String) : Except Err Version :=
  match check_dict_expected_keys [("pre"), ("post")] operations ("operations") with
  | Except.error e => Except.error e
  | Except.ok kvs => foldExcept (opStep mode) version kvs

/-- The shape of each of the three blocks of `_parse_addons` (the source
repeats it verbatim for upgrade, install and remove, with its own kind
key `k` and `Version.add_*_addons` method `add`): take `kvs.get(k) or []`;
a falsy value is a no-op, a truthy non-list fails naming `k`, and a
non-empty list is handed to `add`. -/
def parse_addon_kind (version : Version) (kvs : List (String × Yaml)) (k : String)
    (add : Version → List Yaml → Option String → Version) (mode : Option String) :
    Except Err Version :=
  let val := pyOr (optGet kvs k) (Yaml.seq [])
  if val.truthy then
    match val with
    | Yaml.seq names => Except.ok (add version names mode)
    | _ => Except.error (Err.parseError (keyMustBeListMsg k) YAML_EXAMPLE)
  else Except.ok version

/-- `YamlParser._parse_addons`: validate the block's keys against
{upgrade, install, remove}; for each kind in that fixed order, a falsy
value is a no-op, a truthy non-list fails, and a non-empty list is
appended as addon actions tagged with `mode`. -/
def parse_addons (version : Version) (addons : Yaml)
    (mode : Option String) : Except Err Version :=
  match check_dict_expected_keys [("upgrade"), ("install"), ("remove")] addons ("addons") with
  | Except.error e => Except.error e
  | Except.ok kvs =>
    match parse_addon_kind version kvs ("upgrade") Version.add_upgrade_addons mode with
    | Except.error e => Except.error e
    | Except.ok version =>
      match parse_addon_kind version kvs ("install") Version.add_install_addons mode with
      | Except.error e => Except.error e
      | Except.ok version =>
        parse_addon_kind version kvs ("remove") Version.add_remove_addons mode

/-- The body of the `for mode_name, mode in modes.items()` loop of
`_parse_version`: validate the mode block's keys against
{operations, addons} (using the mode's name as context), then collect
its operations and addons tagged with the mode's name. -/
def parse_mode (version : Version) (p : String × Yaml) : Except Err Version :=
  match check_dict_expected_keys [("operations"), ("addons")] p.2 p.1 with
  | Except.error e => Except.error e
  | Except.ok mkvs =>
    match parse_operations version (pyOr (optGet mkvs ("operations")) (Yaml.map []))
        (some p.1) with
    | Except.error e => Except.error e
    | Except.ok version =>
      parse_addons version (pyOr (optGet mkvs ("addons")) (Yaml.map [])) (some p.1)

/-- `YamlParser._parse_version`: validate the entry's keys, read the
identifier, collect the base operations and addons with mode `none`,
then require `modes` (when present, even as `None`) to be a mapping and
collect each mode's blocks tagged with its name. -/
def parse_version (parsed_version : Yaml) (options : MigrationOption) :
    Except Err Version :=
  match check_dict_expected_keys [("version"), ("operations"), ("addons"), ("modes")]
      parsed_version ("versions") with
  | Except.error e => Except.error e
  | Except.ok kvs =>
    let version := Version.mk (optGet kvs ("version")) options [] []
    match parse_operations version (pyOr (optGet kvs ("operations")) (Yaml.map [])) none with
    | Except.error e => Except.error e
    | Except.ok version =>
      match parse_addons version (pyOr (optGet kvs ("addons")) (Yaml.map [])) none with
      | Except.error e => Except.error e
      | Except.ok version =>
        match optGetD kvs ("modes") (Yaml.map []) with
        | Yaml.map modekvs => foldExcept parse_mode version modekvs
        | _ => Except.error (Err.parseError (keyMustBeDictMsg ("modes")) YAML_EXAMPLE)

/-- `YamlParser._parse_versions`: a falsy `versions` value is replaced
by the empty list; a (truthy) non-list fails; each entry is parsed in
document order. -/
def parse_versions (migration : List (String × Yaml)) (options : MigrationOption) :
    Except Err (List Version) :=
  match pyOr (optGet migration ("versions")) (Yaml.seq []) with
  | Yaml.seq versions => mapExcept (fun v => parse_version v options) versions
  | _ => Except.error (Err.parseError (keyMustBeListMsg ("versions")) YAML_EXAMPLE)

/-- `YamlParser._parse_migrations`: resolve the options once, then build
the ordered version list. -/
def parse_migrations (config : Config) (migration : List (String × Yaml)) :
    Except Err Migration :=
  match parse_options config migration with
  | Except.error e => Except.error e
  | Except.ok options =>
    match parse_versions migration options with
    | Except.ok versions => Except.ok (Migration.mk versions)
    | Except.error e => Except.error e

/-- The body of `YamlParser.parse` once the loaded document is known to
be a (truthy) mapping: fail with a ParseError when the root's
`migration` value is falsy or absent, validate the `migration` node's
keys against {options, versions}, then build the plan. -/
def parse_root (config : Config) (root : List (String × Yaml)) :
    Except Err Migration :=
  if !(optGet root ("migration")).truthy then
    Except.error (Err.parseError migrationMissingMsg YAML_EXAMPLE)
  else
    match check_dict_expected_keys [("options"), ("versions")]
        (optGet root ("migration")) ("migration") with
    | Except.error e => Except.error e
    | Except.ok migkvs => parse_migrations config migkvs

/-- `YamlParser.parse`: fail with a ConfigurationError when no document
was loaded (falsy input), then look up `migration` in the root mapping
(an `AttributeError` on any other truthy document). -/
def parse (config : Config) (parsed : Yaml) : Except Err Migration :=
  if !parsed.truthy then Except.error (Err.configurationError noYamlMsg)
  else
    match parsed with
    | Yaml.map root => parse_root config root
    | _ => Except.error (Err.pythonError ("AttributeError: get"))

/-! ### Derived views of the document, used to state the claims -/

/-- The bindings of a document value when it is a mapping, `[]`
otherwise (only applied where the parser has already established the
mapping shape). -/
def asMapL : Yaml → List (String × Yaml)
  | Yaml.map kvs => kvs
  | _ => []

/-- The sub-block bound to `k` in a node, with the parser's falsy-to-`{}`
coercion applied: the bindings of `node.get(k) or {}`. -/
def blockIn (node : List (String × Yaml)) (k : String) : List (String × Yaml) :=
  asMapL (pyOr (optGet node k) (Yaml.map []))

/-- The `(phase, mode, operation)` triples an operations block
contributes, in document order (non-list values contribute nothing; the
parser rejects them before ever reaching this point). -/
def opsEntries : List (String × Yaml) → Option String →
    List (String × Option String × Operation)
  | [], _ => []
  | p :: rest, mode =>
    (match p.2 with
     | Yaml.seq commands => commands.map (fun c => (p.1, mode, Operation.mk c))
     | _ => []) ++ opsEntries rest mode

/-- The `(kind, mode, addon)` triples one kind contributes from an
addons block: the elements of `node.get(kind) or []`, in order, when
that is a list, and nothing otherwise. -/
def addonEntriesOf (kvs : List (String × Yaml)) (k : String)
    (mode : Option String) : List (String × Option String × Yaml) :=
  match pyOr (optGet kvs k) (Yaml.seq []) with
  | Yaml.seq names => names.map (fun n => (k, mode, n))
  | _ => []

/-- The `(kind, mode, addon)` triples an addons block contributes, in
the parser's fixed upgrade, install, remove order. -/
def addonEntries (kvs : List (String × Yaml)) (mode : Option String) :
    List (String × Option String × Yaml) :=
  addonEntriesOf kvs ("upgrade") mode ++ addonEntriesOf kvs ("install") mode
    ++ addonEntriesOf kvs ("remove") mode

/-- The operation triples contributed by the `modes` bindings, each mode
tagged with its own name, in document order. -/
def modeOpsEntries : List (String × Yaml) → List (String × Option String × Operation)
  | [] => []
  | p :: rest =>
    opsEntries (blockIn (asMapL p.2) ("operations")) (some p.1) ++ modeOpsEntries rest

/-- The addon triples contributed by the `modes` bindings, each mode
tagged with its own name, in document order. -/
def modeAddonEntries : List (String × Yaml) → List (String × Option String × Yaml)
  | [] => []
  | p :: rest =>
    addonEntries (blockIn (asMapL p.2) ("addons")) (some p.1) ++ modeAddonEntries rest

/-! ### Substring containment, used to state the error-message claims -/

/-- Whether `sub` is a leading segment of `s` (on character lists). -/
def leadsWith : List Char → List Char → Bool
  | [], _ => true
  | _ :: _, [] => false
  | a :: as, b :: bs => a == b && leadsWith as bs

/-- Whether `sub` occurs contiguously somewhere in `s`. -/
def hasSub : List Char → List Char → Bool
  | sub, [] => sub.isEmpty
  | sub, c :: rest => leadsWith sub (c :: rest) || hasSub sub rest

/-- `sub` occurs as a contiguous substring of `s`. -/
def strContains (s sub : String) : Prop :=
  hasSub sub.data s.data = true

theorem data_append (s t : String) : (s ++ t).data = s.data ++ t.data := rfl

theorem leadsWith_append (a b : List Char) : leadsWith a (a ++ b) = true := by
  induction a with
  | nil => rfl
  | cons x xs ih => simp [leadsWith, ih]

theorem leadsWith_extend {a b : List Char} (q : List Char)
    (h : leadsWith a b = true) : leadsWith a (b ++ q) = true := by
  induction a generalizing b with
  | nil => rfl
  | cons x xs ih =>
    cases b with
    | nil => simp [leadsWith] at h
    | cons y ys =>
      simp [leadsWith] at h ⊢
      exact ⟨h.1, ih h.2⟩

theorem hasSub_nil (q : List Char) : hasSub [] q = true := by
  cases q with
  | nil => rfl
  | cons c rest => simp [hasSub, leadsWith]

theorem hasSub_self_append (sub t : List Char) : hasSub sub (sub ++ t) = true := by
  cases sub with
  | nil => exact hasSub_nil t
  | cons a as => simp [hasSub, leadsWith, leadsWith_append]

theorem hasSub_cons {sub s : List Char} (c : Char)
    (h : hasSub sub s = true) : hasSub sub (c :: s) = true := by
  simp [hasSub, h]

theorem hasSub_prepend {sub s : List Char} (p : List Char)
    (h : hasSub sub s = true) : hasSub sub (p ++ s) = true := by
  induction p with
  | nil => exact h
  | cons c rest ih => exact hasSub_cons c ih

theorem hasSub_extend {sub s : List Char} (q : List Char)
    (h : hasSub sub s = true) : hasSub sub (s ++ q) = true := by
  induction s with
  | nil =>
    simp [hasSub, List.isEmpty_iff] at h
    subst h
    exact hasSub_nil q
  | cons c rest ih =>
    simp only [hasSub, Bool.or_eq_true] at h
    rcases h with h | h
    · have := leadsWith_extend q h
      simp only [List.cons_append] at this ⊢
      simp [hasSub, this]
    · have := ih h
      simp only [List.cons_append]
      exact hasSub_cons c this

theorem strContains_refl (s : String) : strContains s s := by
  have := hasSub_self_append s.data []
  simpa using this

theorem strContains_prepend {s sub : String} (p : String)
    (h : strContains s sub) : strContains (p ++ s) sub := by
  unfold strContains at h ⊢
  rw [data_append]
  exact hasSub_prepend p.data h

theorem strContains_extend {s sub : String} (q : String)
    (h : strContains s sub) : strContains (s ++ q) sub := by
  unfold strContains at h ⊢
  rw [data_append]
  exact hasSub_extend q.data h

theorem strContains_pyQuote (k : String) : strContains (pyQuote k) k := by
  unfold pyQuote
  exact strContains_extend _ (strContains_prepend _ (strContains_refl k))

theorem strContains_pyInner {k : String} :
    ∀ {l : List String}, k ∈ l → strContains (pyInner l) k := by
  intro l
  induction l with
  | nil => intro h; cases h
  | cons s rest ih =>
    intro hmem
    cases rest with
    | nil =>
      have : k = s := by simpa using hmem
      subst this
      exact strContains_pyQuote k
    | cons t rest2 =>
      rcases List.mem_cons.mp hmem with h | h
      · subst h
        show strContains (pyQuote k ++ ", " ++ pyInner (t :: rest2)) k
        exact strContains_extend _ (strContains_extend _ (strContains_pyQuote k))
      · have inner := ih h
        show strContains (pyQuote s ++ ", " ++ pyInner (t :: rest2)) k
        exact strContains_prepend _ inner

theorem strContains_pyListStr {k : String} {l : List String} (h : k ∈ l) :
    strContains (pyListStr l) k := by
  unfold pyListStr
  exact strContains_extend _ (strContains_prepend _ (strContains_pyInner h))

theorem unexpectedKeysMsg_contains_name (d : String) (extra allowed : List String) :
    strContains (unexpectedKeysMsg d extra allowed) d := by
  unfold unexpectedKeysMsg
  exact strContains_extend _ (strContains_extend _ (strContains_extend _
    (strContains_extend _ (strContains_extend _
      (strContains_prepend _ (strContains_refl d))))))

theorem unexpectedKeysMsg_contains_extra {k : String} (d : String)
    {extra : List String} (allowed : List String) (h : k ∈ extra) :
    strContains (unexpectedKeysMsg d extra allowed) k := by
  unfold unexpectedKeysMsg
  exact strContains_extend _ (strContains_extend _ (strContains_extend _
    (strContains_prepend _ (strContains_pyListStr h))))

theorem unexpectedKeysMsg_contains_allowed {k : String} (d : String)
    (extra : List String) {allowed : List String} (h : k ∈ allowed) :
    strContains (unexpectedKeysMsg d extra allowed) k := by
  unfold unexpectedKeysMsg
  exact strContains_extend _ (strContains_prepend _ (strContains_pyListStr h))

/-! ### Characterization lemmas for the parsing functions -/

theorem check_ok_shape {exp : List String} {node : Yaml} {name : String}
    {kvs : List (String × Yaml)}
    (h : check_dict_expected_keys exp node name = Except.ok kvs) :
    node = Yaml.map kvs ∧ keysOutside kvs exp = [] := by
  cases node with
  | map kvs2 =>
    simp only [check_dict_expected_keys] at h
    by_cases hk : keysOutside kvs2 exp = []
    · rw [if_pos hk] at h
      injection h with h
      subst h
      exact ⟨rfl, hk⟩
    · rw [if_neg hk] at h
      exact Except.noConfusion h
  | null => exact Except.noConfusion h
  | bool b => exact Except.noConfusion h
  | int n => exact Except.noConfusion h
  | str s => exact Except.noConfusion h
  | seq xs => exact Except.noConfusion h

theorem check_ok_of_keys {exp : List String} {kvs : List (String × Yaml)}
    (name : String) (hk : keysOutside kvs exp = []) :
    check_dict_expected_keys exp (Yaml.map kvs) name = Except.ok kvs := by
  simp only [check_dict_expected_keys]
  rw [if_pos hk]

theorem check_map_err {exp : List String} {kvs : List (String × Yaml)}
    (name : String) (hk : keysOutside kvs exp ≠ []) :
    check_dict_expected_keys exp (Yaml.map kvs) name
      = Except.error (Err.parseError
          (unexpectedKeysMsg name (keysOutside kvs exp) exp) YAML_EXAMPLE) := by
  simp only [check_dict_expected_keys]
  rw [if_neg hk]

theorem check_nonmap_err {exp : List String} {node : Yaml} (name : String)
    (h : ∀ kvs, node ≠ Yaml.map kvs) :
    check_dict_expected_keys exp node name
      = Except.error (Err.parseError (keyMustBeDictMsg name) YAML_EXAMPLE) := by
  cases node with
  | map kvs => exact absurd rfl (h kvs)
  | null => rfl
  | bool b => rfl
  | int n => rfl
  | str s => rfl
  | seq xs => rfl

theorem foldl_add_operation (k : String) (mode : Option String) :
    ∀ (cs : List Yaml) (v : Version),
    cs.foldl (fun v c => v.add_operation k (Operation.mk c) mode) v
      = { v with operations :=
            v.operations ++ cs.map (fun c => (k, mode, Operation.mk c)) } := by
  intro cs
  induction cs with
  | nil => intro v; simp
  | cons c rest ih =>
    intro v
    simp only [List.foldl_cons, List.map_cons]
    rw [ih]
    simp [Version.add_operation, List.append_assoc]

theorem opStep_ok {mode : Option String} {v : Version} {p : String × Yaml}
    {b2 : Version} (h : opStep mode v p = Except.ok b2) :
    ∃ commands, p.2 = Yaml.seq commands ∧
      b2 = { v with operations :=
        v.operations ++ commands.map (fun c => (p.1, mode, Operation.mk c)) } := by
  obtain ⟨k, val⟩ := p
  cases val with
  | seq commands =>
    refine ⟨commands, rfl, ?_⟩
    unfold opStep at h
    injection h with h
    rw [← h, foldl_add_operation]
  | null => exact Except.noConfusion h
  | bool b => exact Except.noConfusion h
  | int n => exact Except.noConfusion h
  | str s => exact Except.noConfusion h
  | map kvs => exact Except.noConfusion h

theorem opStep_err {mode : Option String} {v : Version} {p : String × Yaml}
    (h : ∀ cs, p.2 ≠ Yaml.seq cs) :
    opStep mode v p
      = Except.error (Err.parseError (keyMustBeListMsg p.1) YAML_EXAMPLE) := by
  obtain ⟨k, val⟩ := p
  cases val with
  | seq commands => exact absurd rfl (h commands)
  | null => rfl
  | bool b => rfl
  | int n => rfl
  | str s => rfl
  | map kvs => rfl

theorem foldExcept_opStep_ok (mode : Option String) :
    ∀ (kvs : List (String × Yaml)) (v v2 : Version),
    foldExcept (opStep mode) v kvs = Except.ok v2 →
    v2 = { v with operations := v.operations ++ opsEntries kvs mode } := by
  intro kvs
  induction kvs with
  | nil =>
    intro v v2 h
    injection h with h
    subst h
    simp [opsEntries]
  | cons p rest ih =>
    intro v v2 h
    unfold foldExcept at h
    cases hstep : opStep mode v p with
    | error e => rw [hstep] at h; exact Except.noConfusion h
    | ok b2 =>
      rw [hstep] at h
      obtain ⟨commands, hp, hb2⟩ := opStep_ok hstep
      have h3 := ih b2 v2 h
      subst hb2
      rw [h3]
      simp [opsEntries, hp, List.append_assoc]

theorem foldExcept_opStep_err (mode : Option String) :
    ∀ (kvs : List (String × Yaml)) (v : Version),
    (∃ p ∈ kvs, ∀ cs, p.2 ≠ Yaml.seq cs) →
    ∃ p ∈ kvs, (∀ cs, p.2 ≠ Yaml.seq cs) ∧
      foldExcept (opStep mode) v kvs
        = Except.error (Err.parseError (keyMustBeListMsg p.1) YAML_EXAMPLE) := by
  intro kvs
  induction kvs with
  | nil =>
    rintro v ⟨p, hp, _⟩
    cases hp
  | cons q rest ih =>
    intro v hex
    by_cases hq : ∀ cs, q.2 ≠ Yaml.seq cs
    · refine ⟨q, List.mem_cons_self q rest, hq, ?_⟩
      unfold foldExcept
      rw [opStep_err hq]
    · push_neg at hq
      obtain ⟨cs, hcs⟩ := hq
      have hstep : ∃ b2, opStep mode v q = Except.ok b2 := by
        obtain ⟨k, val⟩ := q
        simp only at hcs
        subst hcs
        exact ⟨_, rfl⟩
      obtain ⟨b2, hstep⟩ := hstep
      obtain ⟨p, hpmem, hpns⟩ := hex
      have hprest : p ∈ rest := by
        rcases List.mem_cons.mp hpmem with h | h
        · subst h; exact absurd hcs (hpns cs)
        · exact h
      obtain ⟨p2, hp2mem, hp2ns, herr⟩ := ih b2 ⟨p, hprest, hpns⟩
      refine ⟨p2, List.mem_cons_of_mem _ hp2mem, hp2ns, ?_⟩
      unfold foldExcept
      rw [hstep]
      exact herr

theorem parse_operations_ok {v : Version} {node : Yaml} {mode : Option String}
    {v2 : Version} (h : parse_operations v node mode = Except.ok v2) :
    (∃ kvs, node = Yaml.map kvs ∧ keysOutside kvs [("pre"), ("post")] = []) ∧
    v2 = { v with operations := v.operations ++ opsEntries (asMapL node) mode } := by
  unfold parse_operations at h
  cases hc : check_dict_expected_keys [("pre"), ("post")] node ("operations") with
  | error e => rw [hc] at h; exact Except.noConfusion h
  | ok kvs =>
    rw [hc] at h
    obtain ⟨hnode, hkeys⟩ := check_ok_shape hc
    subst hnode
    exact ⟨⟨kvs, rfl, hkeys⟩, foldExcept_opStep_ok mode kvs v v2 h⟩

theorem parse_addon_kind_ok {v : Version} {kvs : List (String × Yaml)}
    {k : String} {mode : Option String} {v2 : Version}
    {add : Version → List Yaml → Option String → Version}
    (hadd : ∀ (v : Version) (names : List Yaml) (mode : Option String),
      add v names mode
        = { v with addons := v.addons ++ names.map (fun n => (k, mode, n)) })
    (h : parse_addon_kind v kvs k add mode = Except.ok v2) :
    v2 = { v with addons := v.addons ++ addonEntriesOf kvs k mode } := by
  unfold parse_addon_kind at h
  unfold addonEntriesOf
  by_cases hx : (optGet kvs k).truthy
  · have hval : pyOr (optGet kvs k) (Yaml.seq []) = optGet kvs k := by
      unfold pyOr; rw [if_pos hx]
    rw [hval] at h ⊢
    rw [if_pos hx] at h
    cases hv : optGet kvs k with
    | seq names =>
      rw [hv] at h
      injection h with h
      rw [← h, hadd]
    | null => rw [hv] at h; exact Except.noConfusion h
    | bool b => rw [hv] at h; exact Except.noConfusion h
    | int n => rw [hv] at h; exact Except.noConfusion h
    | str s => rw [hv] at h; exact Except.noConfusion h
    | map m => rw [hv] at h; exact Except.noConfusion h
  · have hval : pyOr (optGet kvs k) (Yaml.seq []) = Yaml.seq [] := by
      unfold pyOr; rw [if_neg (by simpa using hx)]
    rw [hval] at h ⊢
    simp only [Yaml.truthy, List.isEmpty_nil, Bool.not_true, Bool.false_eq_true,
      if_false] at h
    injection h with h
    subst h
    simp

theorem parse_addon_kind_err {v : Version} {kvs : List (String × Yaml)}
    {k : String} {mode : Option String}
    (add : Version → List Yaml → Option String → Version)
    (h1 : (optGet kvs k).truthy = true)
    (h2 : ∀ ns, optGet kvs k ≠ Yaml.seq ns) :
    parse_addon_kind v kvs k add mode
      = Except.error (Err.parseError (keyMustBeListMsg k) YAML_EXAMPLE) := by
  unfold parse_addon_kind
  have hval : pyOr (optGet kvs k) (Yaml.seq []) = optGet kvs k := by
    unfold pyOr; rw [if_pos h1]
  rw [hval, if_pos h1]
  cases hv : optGet kvs k with
  | seq names => exact absurd hv (h2 names)
  | null => rfl
  | bool b => rfl
  | int n => rfl
  | str s => rfl
  | map m => rfl

theorem parse_addon_kind_skip {v : Version} {kvs : List (String × Yaml)}
    {k : String} {mode : Option String}
    (add : Version → List Yaml → Option String → Version)
    (h1 : (optGet kvs k).truthy = false ∨ ∃ ns, optGet kvs k = Yaml.seq ns) :
    ∃ v2, parse_addon_kind v kvs k add mode = Except.ok v2 := by
  unfold parse_addon_kind
  by_cases hx : (optGet kvs k).truthy
  · have hval : pyOr (optGet kvs k) (Yaml.seq []) = optGet kvs k := by
      unfold pyOr; rw [if_pos hx]
    rw [hval, if_pos hx]
    rcases h1 with h1 | ⟨ns, hns⟩
    · rw [hx] at h1; exact absurd h1 (by simp)
    · rw [hns]
      exact ⟨_, rfl⟩
  · have hval : pyOr (optGet kvs k) (Yaml.seq []) = Yaml.seq [] := by
      unfold pyOr; rw [if_neg (by simpa using hx)]
    rw [hval]
    simp only [Yaml.truthy, List.isEmpty_nil, Bool.not_true, Bool.false_eq_true,
      if_false]
    exact ⟨v, rfl⟩

theorem parse_addons_unfold (v : Version) (kvs : List (String × Yaml))
    (mode : Option String)
    (hkeys : keysOutside kvs [("upgrade"), ("install"), ("remove")] = []) :
    parse_addons v (Yaml.map kvs) mode
      = match parse_addon_kind v kvs ("upgrade") Version.add_upgrade_addons mode with
        | Except.error e => Except.error e
        | Except.ok va =>
          match parse_addon_kind va kvs ("install") Version.add_install_addons mode with
          | Except.error e => Except.error e
          | Except.ok vb =>
            parse_addon_kind vb kvs ("remove") Version.add_remove_addons mode := by
  unfold parse_addons
  rw [check_ok_of_keys ("addons") hkeys]

theorem parse_addons_ok {v : Version} {node : Yaml} {mode : Option String}
    {v2 : Version} (h : parse_addons v node mode = Except.ok v2) :
    (∃ kvs, node = Yaml.map kvs
      ∧ keysOutside kvs [("upgrade"), ("install"), ("remove")] = []) ∧
    v2 = { v with addons := v.addons ++ addonEntries (asMapL node) mode } := by
  unfold parse_addons at h
  cases hc : check_dict_expected_keys [("upgrade"), ("install"), ("remove")]
      node ("addons") with
  | error e => rw [hc] at h; exact Except.noConfusion h
  | ok kvs =>
    rw [hc] at h
    obtain ⟨hnode, hkeys⟩ := check_ok_shape hc
    subst hnode
    refine ⟨⟨kvs, rfl, hkeys⟩, ?_⟩
    have ha : (match parse_addon_kind v kvs ("upgrade") Version.add_upgrade_addons mode with
      | Except.error e => Except.error e
      | Except.ok va =>
        match parse_addon_kind va kvs ("install") Version.add_install_addons mode with
        | Except.error e => Except.error e
        | Except.ok vb =>
          parse_addon_kind vb kvs ("remove") Version.add_remove_addons mode)
        = Except.ok v2 := h
    clear h
    cases h1 : parse_addon_kind v kvs ("upgrade") Version.add_upgrade_addons mode with
    | error e => rw [h1] at ha; exact Except.noConfusion ha
    | ok va =>
      rw [h1] at ha
      have hb : (match parse_addon_kind va kvs ("install") Version.add_install_addons mode with
        | Except.error e => Except.error e
        | Except.ok vb =>
          parse_addon_kind vb kvs ("remove") Version.add_remove_addons mode)
          = Except.ok v2 := ha
      clear ha
      cases h2 : parse_addon_kind va kvs ("install") Version.add_install_addons mode with
      | error e => rw [h2] at hb; exact Except.noConfusion hb
      | ok vb =>
        rw [h2] at hb
        have h3 : parse_addon_kind vb kvs ("remove") Version.add_remove_addons mode
            = Except.ok v2 := hb
        have e1 := parse_addon_kind_ok (fun _ _ _ => rfl) h1
        have e2 := parse_addon_kind_ok (fun _ _ _ => rfl) h2
        have e3 := parse_addon_kind_ok (fun _ _ _ => rfl) h3
        subst e1
        subst e2
        subst e3
        simp [addonEntries, asMapL, List.append_assoc]

theorem parse_addons_err_upgrade {v : Version} {kvs : List (String × Yaml)}
    {mode : Option String}
    (hkeys : keysOutside kvs [("upgrade"), ("install"), ("remove")] = [])
    (h1 : (optGet kvs ("upgrade")).truthy = true)
    (h2 : ∀ ns, optGet kvs ("upgrade") ≠ Yaml.seq ns) :
    parse_addons v (Yaml.map kvs) mode
      = Except.error (Err.parseError (keyMustBeListMsg ("upgrade")) YAML_EXAMPLE) := by
  rw [parse_addons_unfold v kvs mode hkeys,
    parse_addon_kind_err Version.add_upgrade_addons h1 h2]

theorem parse_addons_err_install {v : Version} {kvs : List (String × Yaml)}
    {mode : Option String}
    (hkeys : keysOutside kvs [("upgrade"), ("install"), ("remove")] = [])
    (g1 : (optGet kvs ("upgrade")).truthy = false
          ∨ ∃ ns, optGet kvs ("upgrade") = Yaml.seq ns)
    (h1 : (optGet kvs ("install")).truthy = true)
    (h2 : ∀ ns, optGet kvs ("install") ≠ Yaml.seq ns) :
    parse_addons v (Yaml.map kvs) mode
      = Except.error (Err.parseError (keyMustBeListMsg ("install")) YAML_EXAMPLE) := by
  obtain ⟨va, hva⟩ := @parse_addon_kind_skip v kvs ("upgrade") mode
    Version.add_upgrade_addons g1
  rw [parse_addons_unfold v kvs mode hkeys]
  rw [hva]
  show (match parse_addon_kind va kvs ("install") Version.add_install_addons mode with
    | Except.error e => Except.error e
    | Except.ok vb => parse_addon_kind vb kvs ("remove") Version.add_remove_addons mode)
    = Except.error (Err.parseError (keyMustBeListMsg ("install")) YAML_EXAMPLE)
  rw [parse_addon_kind_err Version.add_install_addons h1 h2]

theorem parse_addons_err_remove {v : Version} {kvs : List (String × Yaml)}
    {mode : Option String}
    (hkeys : keysOutside kvs [("upgrade"), ("install"), ("remove")] = [])
    (g1 : (optGet kvs ("upgrade")).truthy = false
          ∨ ∃ ns, optGet kvs ("upgrade") = Yaml.seq ns)
    (g2 : (optGet kvs ("install")).truthy = false
          ∨ ∃ ns, optGet kvs ("install") = Yaml.seq ns)
    (h1 : (optGet kvs ("remove")).truthy = true)
    (h2 : ∀ ns, optGet kvs ("remove") ≠ Yaml.seq ns) :
    parse_addons v (Yaml.map kvs) mode
      = Except.error (Err.parseError (keyMustBeListMsg ("remove")) YAML_EXAMPLE) := by
  obtain ⟨va, hva⟩ := @parse_addon_kind_skip v kvs ("upgrade") mode
    Version.add_upgrade_addons g1
  obtain ⟨vb, hvb⟩ := @parse_addon_kind_skip va kvs ("install") mode
    Version.add_install_addons g2
  rw [parse_addons_unfold v kvs mode hkeys]
  rw [hva]
  show (match parse_addon_kind va kvs ("install") Version.add_install_addons mode with
    | Except.error e => Except.error e
    | Except.ok vb => parse_addon_kind vb kvs ("remove") Version.add_remove_addons mode)
    = Except.error (Err.parseError (keyMustBeListMsg ("remove")) YAML_EXAMPLE)
  rw [hvb]
  exact parse_addon_kind_err Version.add_remove_addons h1 h2

theorem parse_mode_ok {v : Version} {p : String × Yaml} {v2 : Version}
    (h : parse_mode v p = Except.ok v2) :
    v2 = { v with
      operations := v.operations
        ++ opsEntries (blockIn (asMapL p.2) ("operations")) (some p.1),
      addons := v.addons
        ++ addonEntries (blockIn (asMapL p.2) ("addons")) (some p.1) } := by
  unfold parse_mode at h
  cases hc : check_dict_expected_keys [("operations"), ("addons")] p.2 p.1 with
  | error e => rw [hc] at h; exact Except.noConfusion h
  | ok mkvs =>
    rw [hc] at h
    obtain ⟨hnode, _⟩ := check_ok_shape hc
    have ha : (match parse_operations v (pyOr (optGet mkvs ("operations")) (Yaml.map []))
        (some p.1) with
      | Except.error e => Except.error e
      | Except.ok va =>
        parse_addons va (pyOr (optGet mkvs ("addons")) (Yaml.map [])) (some p.1))
        = Except.ok v2 := h
    clear h
    cases ho : parse_operations v (pyOr (optGet mkvs ("operations")) (Yaml.map []))
        (some p.1) with
    | error e => rw [ho] at ha; exact Except.noConfusion ha
    | ok va =>
      rw [ho] at ha
      have hadd : parse_addons va (pyOr (optGet mkvs ("addons")) (Yaml.map []))
          (some p.1) = Except.ok v2 := ha
      obtain ⟨_, hva⟩ := parse_operations_ok ho
      obtain ⟨_, hv2⟩ := parse_addons_ok hadd
      subst hva
      subst hv2
      rw [hnode]
      simp [blockIn, asMapL]

theorem foldExcept_parse_mode_ok :
    ∀ (modekvs : List (String × Yaml)) (v v2 : Version),
    foldExcept parse_mode v modekvs = Except.ok v2 →
    v2 = { v with operations := v.operations ++ modeOpsEntries modekvs,
                  addons := v.addons ++ modeAddonEntries modekvs } := by
  intro modekvs
  induction modekvs with
  | nil =>
    intro v v2 h
    injection h with h
    subst h
    simp [modeOpsEntries, modeAddonEntries]
  | cons p rest ih =>
    intro v v2 h
    unfold foldExcept at h
    cases hstep : parse_mode v p with
    | error e => rw [hstep] at h; exact Except.noConfusion h
    | ok b2 =>
      rw [hstep] at h
      have hb2 := parse_mode_ok hstep
      have h3 := ih b2 v2 h
      subst hb2
      rw [h3]
      simp [modeOpsEntries, modeAddonEntries, List.append_assoc]

theorem parse_version_ok {kvs : List (String × Yaml)} {opts : MigrationOption}
    {v : Version} (h : parse_version (Yaml.map kvs) opts = Except.ok v) :
    keysOutside kvs [("version"), ("operations"), ("addons"), ("modes")] = [] ∧
    v.number = optGet kvs ("version") ∧ v.options = opts ∧
    v.operations = opsEntries (blockIn kvs ("operations")) none
        ++ modeOpsEntries (asMapL (optGetD kvs ("modes") (Yaml.map []))) ∧
    v.addons = addonEntries (blockIn kvs ("addons")) none
        ++ modeAddonEntries (asMapL (optGetD kvs ("modes") (Yaml.map []))) := by
  by_cases hkeys : keysOutside kvs [("version"), ("operations"), ("addons"), ("modes")] = []
  case neg =>
    unfold parse_version at h
    rw [check_map_err ("versions") hkeys] at h
    exact Except.noConfusion h
  unfold parse_version at h
  rw [check_ok_of_keys ("versions") hkeys] at h
  have h0 : (match parse_operations (Version.mk (optGet kvs ("version")) opts [] [])
      (pyOr (optGet kvs ("operations")) (Yaml.map [])) none with
    | Except.error e => Except.error e
    | Except.ok va =>
      match parse_addons va (pyOr (optGet kvs ("addons")) (Yaml.map [])) none with
      | Except.error e => Except.error e
      | Except.ok vb =>
        match optGetD kvs ("modes") (Yaml.map []) with
        | Yaml.map modekvs => foldExcept parse_mode vb modekvs
        | _ => Except.error (Err.parseError (keyMustBeDictMsg ("modes")) YAML_EXAMPLE))
      = Except.ok v := h
  clear h
  cases ho : parse_operations (Version.mk (optGet kvs ("version")) opts [] [])
      (pyOr (optGet kvs ("operations")) (Yaml.map [])) none with
  | error e => rw [ho] at h0; exact Except.noConfusion h0
  | ok va =>
    rw [ho] at h0
    have h1 : (match parse_addons va (pyOr (optGet kvs ("addons")) (Yaml.map [])) none with
      | Except.error e => Except.error e
      | Except.ok vb =>
        match optGetD kvs ("modes") (Yaml.map []) with
        | Yaml.map modekvs => foldExcept parse_mode vb modekvs
        | _ => Except.error (Err.parseError (keyMustBeDictMsg ("modes")) YAML_EXAMPLE))
        = Except.ok v := h0
    clear h0
    cases ha : parse_addons va (pyOr (optGet kvs ("addons")) (Yaml.map [])) none with
    | error e => rw [ha] at h1; exact Except.noConfusion h1
    | ok vb =>
      rw [ha] at h1
      have h2 : (match optGetD kvs ("modes") (Yaml.map []) with
        | Yaml.map modekvs => foldExcept parse_mode vb modekvs
        | _ => Except.error (Err.parseError (keyMustBeDictMsg ("modes")) YAML_EXAMPLE))
          = Except.ok v := h1
      clear h1
      obtain ⟨_, hva⟩ := parse_operations_ok ho
      obtain ⟨_, hvb⟩ := parse_addons_ok ha
      cases hm : optGetD kvs ("modes") (Yaml.map []) with
      | map modekvs =>
        rw [hm] at h2
        have hv := foldExcept_parse_mode_ok modekvs vb v h2
        subst hva
        subst hvb
        subst hv
        refine ⟨hkeys, rfl, rfl, ?_, ?_⟩
        · simp [blockIn, asMapL, List.append_assoc]
        · simp [blockIn, asMapL, List.append_assoc]
      | null => rw [hm] at h2; exact Except.noConfusion h2
      | bool b => rw [hm] at h2; exact Except.noConfusion h2
      | int n => rw [hm] at h2; exact Except.noConfusion h2
      | str s => rw [hm] at h2; exact Except.noConfusion h2
      | seq xs => rw [hm] at h2; exact Except.noConfusion h2

theorem mapExcept_ok {α β : Type} {f : α → Except Err β} :
    ∀ {l : List α} {res : List β}, mapExcept f l = Except.ok res →
    res.length = l.length ∧
    ∀ (i : Nat) (h1 : i < l.length) (h2 : i < res.length),
      f (l.get ⟨i, h1⟩) = Except.ok (res.get ⟨i, h2⟩) := by
  intro l
  induction l with
  | nil =>
    intro res h
    injection h with h
    subst h
    exact ⟨rfl, fun i h1 _ => absurd h1 (Nat.not_lt_zero i)⟩
  | cons a rest ih =>
    intro res h
    unfold mapExcept at h
    cases hfa : f a with
    | error e => rw [hfa] at h; exact Except.noConfusion h
    | ok b =>
      rw [hfa] at h
      cases hrest : mapExcept f rest with
      | error e => rw [hrest] at h; exact Except.noConfusion h
      | ok bs =>
        rw [hrest] at h
        injection h with h
        subst h
        obtain ⟨hlen, hidx⟩ := ih hrest
        refine ⟨by simp [hlen], ?_⟩
        intro i h1 h2
        cases i with
        | zero => exact hfa
        | succ j =>
          exact hidx j (Nat.lt_of_succ_lt_succ h1) (Nat.lt_of_succ_lt_succ h2)

theorem resolve_cmd_map (config : Config) (optkvs : List (String × Yaml)) :
    resolve_cmd config (Yaml.map optkvs)
      = Except.ok (pyOr (strOpt config.odoo_cmd) (optGet optkvs ("odoo_cmd"))) := by
  unfold resolve_cmd pyOr dictGet
  by_cases t : (strOpt config.odoo_cmd).truthy
  · rw [if_pos t, if_pos t]
  · rw [if_neg t, if_neg t]

theorem resolve_str_opt_map (c : Option String) (optkvs : List (String × Yaml))
    (k : String) :
    resolve_str_opt c (Yaml.map optkvs) k
      = Except.ok (pyOr (strOpt c) (pyOr (optGet optkvs k) (Yaml.str ("")))) := by
  unfold resolve_str_opt dictGet
  by_cases t : (strOpt c).truthy
  · rw [if_pos t]
    unfold pyOr
    rw [if_pos t]
  · rw [if_neg t]
    conv_rhs => unfold pyOr
    rw [if_neg t]
    rfl

theorem parse_options_ok {config : Config} {migkvs optkvs : List (String × Yaml)}
    {opts : MigrationOption}
    (hopt : optionsNode migkvs = Yaml.map optkvs)
    (h : parse_options config migkvs = Except.ok opts) :
    opts.odoo_cmd = pyOr (strOpt config.odoo_cmd) (optGet optkvs ("odoo_cmd"))
    ∧ (∃ s, pyOr (strOpt config.odoo_args)
          (pyOr (optGet optkvs ("odoo_args")) (Yaml.str (""))) = Yaml.str s
        ∧ opts.odoo_args = pySplit s)
    ∧ opts.odoo_dsn = Database.dsn config
    ∧ opts.odoo_addons_path = pyOr (strOpt config.odoo_addons_path)
        (pyOr (optGet optkvs ("odoo_addons_path")) (Yaml.str (""))) := by
  unfold parse_options at h
  rw [hopt, resolve_cmd_map, resolve_str_opt_map, resolve_str_opt_map] at h
  have h0 : (match pyOr (strOpt config.odoo_args)
      (pyOr (optGet optkvs ("odoo_args")) (Yaml.str (""))) with
    | Yaml.str argsStr =>
      Except.ok (MigrationOption.mk
        (pyOr (strOpt config.odoo_cmd) (optGet optkvs ("odoo_cmd")))
        (pySplit argsStr) (Database.dsn config)
        (pyOr (strOpt config.odoo_addons_path)
          (pyOr (optGet optkvs ("odoo_addons_path")) (Yaml.str ("")))))
    | _ => Except.error (Err.pythonError ("AttributeError: split")))
      = Except.ok opts := h
  clear h
  cases hargs : pyOr (strOpt config.odoo_args)
      (pyOr (optGet optkvs ("odoo_args")) (Yaml.str (""))) with
  | str s =>
    rw [hargs] at h0
    injection h0 with h0
    subst h0
    exact ⟨rfl, ⟨s, rfl, rfl⟩, rfl, rfl⟩
  | null => rw [hargs] at h0; exact Except.noConfusion h0
  | bool b => rw [hargs] at h0; exact Except.noConfusion h0
  | int n => rw [hargs] at h0; exact Except.noConfusion h0
  | seq xs => rw [hargs] at h0; exact Except.noConfusion h0
  | map m => rw [hargs] at h0; exact Except.noConfusion h0

theorem opsEntries_tag :
    ∀ (kvs : List (String × Yaml)) (mode : Option String)
      (e : String × Option String × Operation),
    e ∈ opsEntries kvs mode → e.2.1 = mode := by
  intro kvs
  induction kvs with
  | nil => intro mode e h; simp [opsEntries] at h
  | cons p rest ih =>
    intro mode e h
    simp only [opsEntries, List.mem_append] at h
    rcases h with h | h
    · cases hp : p.2 <;> rw [hp] at h <;> simp at h
      case seq commands =>
        obtain ⟨c, _, rfl⟩ := h
        rfl
    · exact ih mode e h

theorem addonEntriesOf_tag {kvs : List (String × Yaml)} {k : String}
    {mode : Option String} {e : String × Option String × Yaml}
    (h : e ∈ addonEntriesOf kvs k mode) : e.2.1 = mode := by
  unfold addonEntriesOf at h
  cases hv : pyOr (optGet kvs k) (Yaml.seq []) <;> rw [hv] at h <;> simp at h
  case seq names =>
    obtain ⟨n, _, rfl⟩ := h
    rfl

theorem addonEntries_tag {kvs : List (String × Yaml)} {mode : Option String}
    {e : String × Option String × Yaml}
    (h : e ∈ addonEntries kvs mode) : e.2.1 = mode := by
  unfold addonEntries at h
  rcases List.mem_append.mp h with h | h
  · rcases List.mem_append.mp h with h | h
    · exact addonEntriesOf_tag h
    · exact addonEntriesOf_tag h
  · exact addonEntriesOf_tag h

theorem modeOpsEntries_mem {e : String × Option String × Operation} :
    ∀ {modekvs : List (String × Yaml)}, e ∈ modeOpsEntries modekvs →
    ∃ p ∈ modekvs, e ∈ opsEntries (blockIn (asMapL p.2) ("operations")) (some p.1) := by
  intro modekvs
  induction modekvs with
  | nil => intro h; simp [modeOpsEntries] at h
  | cons p rest ih =>
    intro h
    rcases List.mem_append.mp h with h | h
    · exact ⟨p, List.mem_cons_self p rest, h⟩
    · obtain ⟨q, hq, hmem⟩ := ih h
      exact ⟨q, List.mem_cons_of_mem _ hq, hmem⟩

theorem modeAddonEntries_mem {e : String × Option String × Yaml} :
    ∀ {modekvs : List (String × Yaml)}, e ∈ modeAddonEntries modekvs →
    ∃ p ∈ modekvs, e ∈ addonEntries (blockIn (asMapL p.2) ("addons")) (some p.1) := by
  intro modekvs
  induction modekvs with
  | nil => intro h; simp [modeAddonEntries] at h
  | cons p rest ih =>
    intro h
    rcases List.mem_append.mp h with h | h
    · exact ⟨p, List.mem_cons_self p rest, h⟩
    · obtain ⟨q, hq, hmem⟩ := ih h
      exact ⟨q, List.mem_cons_of_mem _ hq, hmem⟩

theorem modeOpsEntries_tag {e : String × Option String × Operation}
    {modekvs : List (String × Yaml)} (h : e ∈ modeOpsEntries modekvs) :
    ∃ m, e.2.1 = some m := by
  obtain ⟨p, _, hmem⟩ := modeOpsEntries_mem h
  exact ⟨p.1, opsEntries_tag _ _ _ hmem⟩

theorem modeAddonEntries_tag {e : String × Option String × Yaml}
    {modekvs : List (String × Yaml)} (h : e ∈ modeAddonEntries modekvs) :
    ∃ m, e.2.1 = some m := by
  obtain ⟨p, _, hmem⟩ := modeAddonEntries_mem h
  exact ⟨p.1, addonEntries_tag hmem⟩

theorem keysOutside_eq_nil {kvs : List (String × Yaml)} {expected : List String}
    (h : ∀ k ∈ kvs.map Prod.fst, k ∈ expected) : keysOutside kvs expected = [] := by
  unfold keysOutside
  rw [List.filter_eq_nil_iff]
  intro a ha
  simp [h a ha]

theorem parse_map (config : Config) (root : List (String × Yaml))
    (htr : (Yaml.map root).truthy = true) :
    parse config (Yaml.map root) = parse_root config root := by
  unfold parse
  rw [htr]
  rfl

theorem parse_migration_falsy {config : Config} {root : List (String × Yaml)}
    (htr : (Yaml.map root).truthy = true)
    (hfalsy : (optGet root ("migration")).truthy = false) :
    parse config (Yaml.map root)
      = Except.error (Err.parseError migrationMissingMsg YAML_EXAMPLE) := by
  rw [parse_map config root htr]
  unfold parse_root
  rw [hfalsy]
  rfl

theorem parse_root_steps (config : Config) {root migkvs : List (String × Yaml)}
    (hmig : optGet root ("migration") = Yaml.map migkvs)
    (htm : (Yaml.map migkvs).truthy = true)
    (hkeys : keysOutside migkvs [("options"), ("versions")] = []) :
    parse_root config root = parse_migrations config migkvs := by
  unfold parse_root
  rw [hmig, htm]
  show (match check_dict_expected_keys [("options"), ("versions")]
      (Yaml.map migkvs) ("migration") with
    | Except.error e => Except.error e
    | Except.ok migkvs => parse_migrations config migkvs)
    = parse_migrations config migkvs
  rw [check_ok_of_keys ("migration") hkeys]

theorem parse_migrations_steps (config : Config) {migkvs : List (String × Yaml)}
    {opts : MigrationOption} (hopts : parse_options config migkvs = Except.ok opts) :
    parse_migrations config migkvs
      = match parse_versions migkvs opts with
        | Except.ok versions => Except.ok (Migration.mk versions)
        | Except.error e => Except.error e := by
  unfold parse_migrations
  rw [hopts]

theorem parse_versions_seq {migkvs : List (String × Yaml)} {opts : MigrationOption}
    {vs : List Yaml} (hv : optGet migkvs ("versions") = Yaml.seq vs) :
    parse_versions migkvs opts = mapExcept (fun v => parse_version v opts) vs := by
  unfold parse_versions
  rw [hv]
  have hpy : pyOr (Yaml.seq vs) (Yaml.seq []) = Yaml.seq vs := by
    cases vs <;> rfl
  rw [hpy]

theorem parse_versions_falsy {migkvs : List (String × Yaml)} {opts : MigrationOption}
    (hv : optGet migkvs ("versions") = Yaml.null
      ∨ optGet migkvs ("versions") = Yaml.seq []) :
    parse_versions migkvs opts = Except.ok [] := by
  unfold parse_versions
  rcases hv with hv | hv <;> rw [hv] <;> rfl

theorem parse_versions_truthy_nonseq {migkvs : List (String × Yaml)}
    {opts : MigrationOption} {w : Yaml}
    (hv : optGet migkvs ("versions") = w) (ht : w.truthy = true)
    (hns : ∀ xs, w ≠ Yaml.seq xs) :
    parse_versions migkvs opts
      = Except.error (Err.parseError (keyMustBeListMsg ("versions")) YAML_EXAMPLE) := by
  unfold parse_versions
  rw [hv]
  have hpy : pyOr w (Yaml.seq []) = w := by
    unfold pyOr
    rw [if_pos ht]
  rw [hpy]
  cases w with
  | seq xs => exact absurd rfl (hns xs)
  | null => rfl
  | bool b => rfl
  | int n => rfl
  | str s => rfl
  | map m => rfl

theorem truthy_of_ne_true {b : Bool} (h : ¬b = true) : b = false := by
  cases b
  · rfl
  · exact absurd rfl h

/-! ### The claims -/

/-- Claim C2: for every allowed key set, node and context label, the key
checker fails exactly when the node is not a mapping or its key set has
a key outside the allowed set (never merely for having fewer keys), the
extra-key error message contains the context label, the offending extra
keys and the full allowed key set and carries the reference example
document; in particular an `addons` block containing the key `delete`
fails with an error citing `addons` and `delete`. -/
theorem claim_C2 :
    (∀ (expected : List String) (kvs : List (String × Yaml)) (name : String),
      (check_dict_expected_keys expected (Yaml.map kvs) name = Except.ok kvs
        ↔ keysOutside kvs expected = [])
      ∧ ((∀ k ∈ kvs.map Prod.fst, k ∈ expected) →
          check_dict_expected_keys expected (Yaml.map kvs) name = Except.ok kvs)
      ∧ (keysOutside kvs expected ≠ [] →
          check_dict_expected_keys expected (Yaml.map kvs) name
            = Except.error (Err.parseError
                (unexpectedKeysMsg name (keysOutside kvs expected) expected)
                YAML_EXAMPLE)
          ∧ strContains (unexpectedKeysMsg name (keysOutside kvs expected) expected) name
          ∧ (∀ k ∈ keysOutside kvs expected,
              strContains (unexpectedKeysMsg name (keysOutside kvs expected) expected) k)
          ∧ (∀ k ∈ expected,
              strContains (unexpectedKeysMsg name (keysOutside kvs expected) expected) k)))
    ∧ (∀ (expected : List String) (node : Yaml) (name : String),
        (∀ kvs, node ≠ Yaml.map kvs) →
        check_dict_expected_keys expected node name
          = Except.error (Err.parseError (keyMustBeDictMsg name) YAML_EXAMPLE))
    ∧ (parse_addons
        (Version.mk Yaml.null (MigrationOption.mk Yaml.null [] ("") (Yaml.str (""))) [] [])
        (Yaml.map [(("delete"), Yaml.seq [Yaml.str ("base")])]) none
        = Except.error (Err.parseError
            (unexpectedKeysMsg ("addons") [("delete")]
              [("upgrade"), ("install"), ("remove")])
            YAML_EXAMPLE)
      ∧ strContains (unexpectedKeysMsg ("addons") [("delete")]
          [("upgrade"), ("install"), ("remove")]) ("addons")
      ∧ strContains (unexpectedKeysMsg ("addons") [("delete")]
          [("upgrade"), ("install"), ("remove")]) ("delete")) := by
  refine ⟨?_, ?_, ?_, ?_, ?_⟩
  · intro expected kvs name
    refine ⟨⟨fun h => (check_ok_shape h).2, fun hk => check_ok_of_keys name hk⟩,
      fun hsub => check_ok_of_keys name (keysOutside_eq_nil hsub),
      fun hk => ⟨check_map_err name hk,
        unexpectedKeysMsg_contains_name name (keysOutside kvs expected) expected,
        fun k hkm => unexpectedKeysMsg_contains_extra name expected hkm,
        fun k hkm => unexpectedKeysMsg_contains_allowed name (keysOutside kvs expected) hkm⟩⟩
  · intro expected node name h
    exact check_nonmap_err name h
  · rfl
  · exact unexpectedKeysMsg_contains_name ("addons") [("delete")]
      [("upgrade"), ("install"), ("remove")]
  · exact unexpectedKeysMsg_contains_extra ("addons")
      [("upgrade"), ("install"), ("remove")] (by simp)

/-- Witness for C2: the checker rejects an `addons` block with the single
key `delete`, with the expected message and example payload. -/
theorem claim_C2_witness :
    check_dict_expected_keys [("upgrade"), ("install"), ("remove")]
        (Yaml.map [(("delete"), Yaml.null)]) ("addons")
      = Except.error (Err.parseError
          (unexpectedKeysMsg ("addons")
            (keysOutside [(("delete"), Yaml.null)] [("upgrade"), ("install"), ("remove")])
            [("upgrade"), ("install"), ("remove")])
          YAML_EXAMPLE)
    ∧ strContains (unexpectedKeysMsg ("addons")
        (keysOutside [(("delete"), Yaml.null)] [("upgrade"), ("install"), ("remove")])
        [("upgrade"), ("install"), ("remove")]) ("addons") := by
  have h := ((claim_C2.1 [("upgrade"), ("install"), ("remove")]
    [(("delete"), Yaml.null)] ("addons")).2.2 (by decide))
  exact ⟨h.1, h.2.1⟩

/-- Claim C6: in an operations block every value under `pre`/`post` must
be a list, otherwise collection fails naming the offending key, and each
list element becomes one Operation appended in order to the (phase,
mode) log; in an addons block a falsy value under
`upgrade`/`install`/`remove` is a no-op, a truthy non-list fails naming
the key, and each list element becomes one addon action appended in
order to the (kind, mode) log. -/
theorem claim_C6 :
    (∀ (v : Version) (kvs : List (String × Yaml)) (mode : Option String),
      keysOutside kvs [("pre"), ("post")] = [] →
      (∃ p ∈ kvs, ∀ cs, p.2 ≠ Yaml.seq cs) →
      ∃ p ∈ kvs, (∀ cs, p.2 ≠ Yaml.seq cs) ∧
        parse_operations v (Yaml.map kvs) mode
          = Except.error (Err.parseError (keyMustBeListMsg p.1) YAML_EXAMPLE))
    ∧ (∀ (v : Version) (kvs : List (String × Yaml)) (mode : Option String)
        (v2 : Version), parse_operations v (Yaml.map kvs) mode = Except.ok v2 →
        v2 = { v with operations := v.operations ++ opsEntries kvs mode })
    ∧ (∀ (v : Version) (kvs : List (String × Yaml)) (mode : Option String)
        (v2 : Version), parse_addons v (Yaml.map kvs) mode = Except.ok v2 →
        v2 = { v with addons := v.addons ++ addonEntries kvs mode })
    ∧ (∀ (v : Version) (kvs : List (String × Yaml)) (mode : Option String),
        keysOutside kvs [("upgrade"), ("install"), ("remove")] = [] →
        (optGet kvs ("upgrade")).truthy = true →
        (∀ ns, optGet kvs ("upgrade") ≠ Yaml.seq ns) →
        parse_addons v (Yaml.map kvs) mode
          = Except.error (Err.parseError (keyMustBeListMsg ("upgrade")) YAML_EXAMPLE))
    ∧ (∀ (v : Version) (kvs : List (String × Yaml)) (mode : Option String),
        keysOutside kvs [("upgrade"), ("install"), ("remove")] = [] →
        ((optGet kvs ("upgrade")).truthy = false
          ∨ ∃ ns, optGet kvs ("upgrade") = Yaml.seq ns) →
        (optGet kvs ("install")).truthy = true →
        (∀ ns, optGet kvs ("install") ≠ Yaml.seq ns) →
        parse_addons v (Yaml.map kvs) mode
          = Except.error (Err.parseError (keyMustBeListMsg ("install")) YAML_EXAMPLE))
    ∧ (∀ (v : Version) (kvs : List (String × Yaml)) (mode : Option String),
        keysOutside kvs [("upgrade"), ("install"), ("remove")] = [] →
        ((optGet kvs ("upgrade")).truthy = false
          ∨ ∃ ns, optGet kvs ("upgrade") = Yaml.seq ns) →
        ((optGet kvs ("install")).truthy = false
          ∨ ∃ ns, optGet kvs ("install") = Yaml.seq ns) →
        (optGet kvs ("remove")).truthy = true →
        (∀ ns, optGet kvs ("remove") ≠ Yaml.seq ns) →
        parse_addons v (Yaml.map kvs) mode
          = Except.error (Err.parseError (keyMustBeListMsg ("remove")) YAML_EXAMPLE)) := by
  refine ⟨?_, ?_, ?_, ?_, ?_, ?_⟩
  · intro v kvs mode hkeys hex
    obtain ⟨p, hpmem, hpns, herr⟩ := foldExcept_opStep_err mode kvs v hex
    refine ⟨p, hpmem, hpns, ?_⟩
    unfold parse_operations
    rw [check_ok_of_keys ("operations") hkeys]
    exact herr
  · intro v kvs mode v2 h
    exact (parse_operations_ok h).2
  · intro v kvs mode v2 h
    exact (parse_addons_ok h).2
  · intro v kvs mode hkeys h1 h2
    exact parse_addons_err_upgrade hkeys h1 h2
  · intro v kvs mode hkeys g1 h1 h2
    exact parse_addons_err_install hkeys g1 h1 h2
  · intro v kvs mode hkeys g1 g2 h1 h2
    exact parse_addons_err_remove hkeys g1 g2 h1 h2

/-- Witness for C6: collecting a one-command `pre` block appends exactly
that operation to the base log. -/
theorem claim_C6_witness :
    Version.mk Yaml.null (MigrationOption.mk Yaml.null [] ("") (Yaml.str ("")))
        [(("pre"), (none : Option String), Operation.mk (Yaml.str ("a")))] []
      = { Version.mk Yaml.null (MigrationOption.mk Yaml.null [] ("") (Yaml.str ("")))
            [] [] with
          operations :=
            (Version.mk Yaml.null (MigrationOption.mk Yaml.null [] ("") (Yaml.str ("")))
              [] []).operations
            ++ opsEntries [(("pre"), Yaml.seq [Yaml.str ("a")])] none } :=
  claim_C6.2.1
    (Version.mk Yaml.null (MigrationOption.mk Yaml.null [] ("") (Yaml.str (""))) [] [])
    [(("pre"), Yaml.seq [Yaml.str ("a")])] none
    (Version.mk Yaml.null (MigrationOption.mk Yaml.null [] ("") (Yaml.str ("")))
      [(("pre"), (none : Option String), Operation.mk (Yaml.str ("a")))] [])
    rfl

/-- The options record used by the C5 witness (contents irrelevant to
version assembly). -/
def c5opts : MigrationOption :=
  MigrationOption.mk Yaml.null [] ("") (Yaml.str (""))

/-- The version entry used by the C5 witness: a base `pre` command and a
`demo` mode with a `post` command. -/
def c5kvs : List (String × Yaml) :=
  [(("version"), Yaml.str ("1")),
   (("operations"), Yaml.map [(("pre"), Yaml.seq [Yaml.str ("a")])]),
   (("modes"), Yaml.map [(("demo"),
      Yaml.map [(("operations"), Yaml.map [(("post"), Yaml.seq [Yaml.str ("b")])])])])]

/-- Claim C5: a built Version's operation log is exactly the base
block's entries tagged `none` followed by each mode's entries tagged
with that mode's name (same for addons); consequently an action in the
base bucket comes from the base block, an action tagged with a mode
comes from that mode's block, and never the other way around. -/
theorem claim_C5 :
    (∀ (kvs : List (String × Yaml)) (opts : MigrationOption) (v : Version),
      parse_version (Yaml.map kvs) opts = Except.ok v →
      (v.operations = opsEntries (blockIn kvs ("operations")) none
          ++ modeOpsEntries (asMapL (optGetD kvs ("modes") (Yaml.map [])))
       ∧ v.addons = addonEntries (blockIn kvs ("addons")) none
          ++ modeAddonEntries (asMapL (optGetD kvs ("modes") (Yaml.map [])))
       ∧ (∀ e ∈ v.operations, e.2.1 = none →
            e ∈ opsEntries (blockIn kvs ("operations")) none)
       ∧ (∀ e ∈ v.operations, ∀ m, e.2.1 = some m →
            ∃ p ∈ asMapL (optGetD kvs ("modes") (Yaml.map [])),
              p.1 = m ∧ e ∈ opsEntries (blockIn (asMapL p.2) ("operations")) (some m))
       ∧ (∀ e ∈ v.addons, e.2.1 = none →
            e ∈ addonEntries (blockIn kvs ("addons")) none)
       ∧ (∀ e ∈ v.addons, ∀ m, e.2.1 = some m →
            ∃ p ∈ asMapL (optGetD kvs ("modes") (Yaml.map [])),
              p.1 = m ∧ e ∈ addonEntries (blockIn (asMapL p.2) ("addons")) (some m))))
    ∧ (∀ (kvs : List (String × Yaml)) (mode : Option String)
        (e : String × Option String × Operation),
        e ∈ opsEntries kvs mode → e.2.1 = mode)
    ∧ (∀ (kvs : List (String × Yaml)) (mode : Option String)
        (e : String × Option String × Yaml),
        e ∈ addonEntries kvs mode → e.2.1 = mode) := by
  refine ⟨?_, opsEntries_tag, fun kvs mode e h => addonEntries_tag h⟩
  intro kvs opts v h
  obtain ⟨_, _, _, hops, hadd⟩ := parse_version_ok h
  refine ⟨hops, hadd, ?_, ?_, ?_, ?_⟩
  · intro e he hnone
    rw [hops] at he
    rcases List.mem_append.mp he with he | he
    · exact he
    · obtain ⟨m, hm⟩ := modeOpsEntries_tag he
      rw [hnone] at hm
      exact Option.noConfusion hm
  · intro e he m hm
    rw [hops] at he
    rcases List.mem_append.mp he with he | he
    · have := opsEntries_tag _ _ _ he
      rw [hm] at this
      exact Option.noConfusion this
    · obtain ⟨p, hp, hmem⟩ := modeOpsEntries_mem he
      have htag := opsEntries_tag _ _ _ hmem
      rw [hm] at htag
      have hpm : p.1 = m := by
        injection htag with h2
        exact h2.symm
      subst hpm
      exact ⟨p, hp, rfl, hmem⟩
  · intro e he hnone
    rw [hadd] at he
    rcases List.mem_append.mp he with he | he
    · exact he
    · obtain ⟨m, hm⟩ := modeAddonEntries_tag he
      rw [hnone] at hm
      exact Option.noConfusion hm
  · intro e he m hm
    rw [hadd] at he
    rcases List.mem_append.mp he with he | he
    · have := addonEntries_tag he
      rw [hm] at this
      exact Option.noConfusion this
    · obtain ⟨p, hp, hmem⟩ := modeAddonEntries_mem he
      have htag := addonEntries_tag hmem
      rw [hm] at htag
      have hpm : p.1 = m := by
        injection htag with h2
        exact h2.symm
      subst hpm
      exact ⟨p, hp, rfl, hmem⟩

/-- Witness for C5: the operation log of the version built from `c5kvs`
is the base `pre` entry followed by the `demo`-tagged `post` entry. -/
theorem claim_C5_witness :
    (Version.mk (Yaml.str ("1")) c5opts
      [(("pre"), (none : Option String), Operation.mk (Yaml.str ("a"))),
       (("post"), some ("demo"), Operation.mk (Yaml.str ("b")))] []).operations
    = opsEntries (blockIn c5kvs ("operations")) none
        ++ modeOpsEntries (asMapL (optGetD c5kvs ("modes") (Yaml.map []))) :=
  ((claim_C5.1 c5kvs c5opts
    (Version.mk (Yaml.str ("1")) c5opts
      [(("pre"), (none : Option String), Operation.mk (Yaml.str ("a"))),
       (("post"), some ("demo"), Operation.mk (Yaml.str ("b")))] [])
    rfl).1)

/-- Claim C10: a version entry whose `modes` key is bound to the null
value fails with `'modes' key must be a dict` (the source uses
`get('modes', {})`, so a present null is not replaced by the default),
while `operations` and `addons` bound to null in the same entry are
coerced to empty blocks and accepted. -/
theorem claim_C10 :
    ∀ (opts : MigrationOption) (n : Yaml),
    parse_version (Yaml.map [(("version"), n), (("operations"), Yaml.null),
        (("addons"), Yaml.null)]) opts
      = Except.ok (Version.mk n opts [] [])
    ∧ parse_version (Yaml.map [(("version"), n), (("operations"), Yaml.null),
        (("addons"), Yaml.null), (("modes"), Yaml.null)]) opts
      = Except.error (Err.parseError (keyMustBeDictMsg ("modes")) YAML_EXAMPLE) :=
  fun _ _ => ⟨rfl, rfl⟩

/-- Claim C3: each option field resolves to the externally supplied
value when that is truthy, otherwise to the document's `options` value,
otherwise to the built-in default; in particular an external `odoo_cmd`
beats a document one, and the resolved `odoo_args` string is tokenized
on whitespace into a list. -/
theorem claim_C3 :
    ∀ (config : Config) (migkvs optkvs : List (String × Yaml))
      (opts : MigrationOption),
    optionsNode migkvs = Yaml.map optkvs →
    parse_options config migkvs = Except.ok opts →
    (((strOpt config.odoo_cmd).truthy = true →
        opts.odoo_cmd = strOpt config.odoo_cmd)
     ∧ ((strOpt config.odoo_cmd).truthy = false →
        opts.odoo_cmd = optGet optkvs ("odoo_cmd"))
     ∧ (∀ s, config.odoo_args = some s → (Yaml.str s).truthy = true →
        opts.odoo_args = pySplit s)
     ∧ ((strOpt config.odoo_args).truthy = false →
        ∀ s, optGet optkvs ("odoo_args") = Yaml.str s → opts.odoo_args = pySplit s)
     ∧ ((strOpt config.odoo_args).truthy = false →
        optGet optkvs ("odoo_args") = Yaml.null → opts.odoo_args = [])
     ∧ ((strOpt config.odoo_addons_path).truthy = true →
        opts.odoo_addons_path = strOpt config.odoo_addons_path)
     ∧ ((strOpt config.odoo_addons_path).truthy = false →
        opts.odoo_addons_path
          = pyOr (optGet optkvs ("odoo_addons_path")) (Yaml.str ("")))) := by
  intro config migkvs optkvs opts hopt h
  obtain ⟨hcmd, ⟨s, hs, hargs⟩, _, hpath⟩ := parse_options_ok hopt h
  refine ⟨?_, ?_, ?_, ?_, ?_, ?_, ?_⟩
  · intro t
    rw [hcmd]
    unfold pyOr
    rw [if_pos t]
  · intro t
    rw [hcmd]
    unfold pyOr
    rw [t]
    rfl
  · intro s2 hc t
    have hstr : strOpt config.odoo_args = Yaml.str s2 := by rw [hc]; rfl
    rw [hstr] at hs
    unfold pyOr at hs
    rw [if_pos t] at hs
    injection hs with hs
    rw [hargs, hs]
  · intro t s2 hdoc
    unfold pyOr at hs
    rw [t] at hs
    simp only [Bool.false_eq_true, if_false] at hs
    rw [hdoc] at hs
    by_cases t2 : (Yaml.str s2).truthy = true
    · rw [if_pos t2] at hs
      injection hs with hs
      rw [hargs, hs]
    · rw [if_neg t2] at hs
      injection hs with hs
      have hs2 : s2 = "" := by
        simp only [Yaml.truthy, Bool.not_eq_true] at t2
        simpa [String.isEmpty_iff] using t2
      rw [hargs, ← hs, hs2]
  · intro t hdoc
    unfold pyOr at hs
    rw [t] at hs
    simp only [Bool.false_eq_true, if_false] at hs
    rw [hdoc] at hs
    simp only [Yaml.truthy, Bool.false_eq_true, if_false] at hs
    injection hs with hs
    rw [hargs, ← hs]
    rfl
  · intro t
    rw [hpath]
    unfold pyOr
    rw [if_pos t]
  · intro t
    rw [hpath]
    conv_lhs => unfold pyOr
    rw [t]
    rfl

/-- Witness for C3: with an external `odoo_cmd` and a document that also
declares one, the resolved command is the external one. -/
theorem claim_C3_witness :
    (MigrationOption.mk (Yaml.str ("odoo-ext")) (pySplit ("-a -b")) ("db")
        (Yaml.str ("p"))).odoo_cmd
      = strOpt (Config.mk (some ("odoo-ext")) (some ("-a -b")) none ("db")).odoo_cmd :=
  (claim_C3 (Config.mk (some ("odoo-ext")) (some ("-a -b")) none ("db"))
    [(("options"), Yaml.map [(("odoo_cmd"), Yaml.str ("odoo-doc")),
        (("odoo_addons_path"), Yaml.str ("p"))])]
    [(("odoo_cmd"), Yaml.str ("odoo-doc")), (("odoo_addons_path"), Yaml.str ("p"))]
    (MigrationOption.mk (Yaml.str ("odoo-ext")) (pySplit ("-a -b")) ("db")
      (Yaml.str ("p")))
    rfl rfl).1 rfl

/-- Claim C4: a falsy (absent or empty) loaded document fails with a
ConfigurationError, and a loaded mapping without the `migration` key
fails with a ParseError. -/
theorem claim_C4 :
    ∀ (config : Config) (parsed : Yaml),
    (parsed.truthy = false →
      parse config parsed = Except.error (Err.configurationError noYamlMsg))
    ∧ (∀ root, parsed = Yaml.map root → parsed.truthy = true →
        lookupY root ("migration") = none →
        parse config parsed
          = Except.error (Err.parseError migrationMissingMsg YAML_EXAMPLE)) := by
  intro config parsed
  constructor
  · intro h
    unfold parse
    rw [h]
    rfl
  · intro root hroot htr habs
    subst hroot
    have hget : optGet root ("migration") = Yaml.null := by
      unfold optGet
      rw [habs]
      rfl
    exact parse_migration_falsy htr (by rw [hget]; rfl)

/-- Witness for C4: the empty (null) input raises the
ConfigurationError, and a mapping without `migration` raises the
missing-key ParseError. -/
theorem claim_C4_witness :
    parse (Config.mk none none none ("db")) Yaml.null
      = Except.error (Err.configurationError noYamlMsg)
    ∧ parse (Config.mk none none none ("db")) (Yaml.map [(("other"), Yaml.null)])
      = Except.error (Err.parseError migrationMissingMsg YAML_EXAMPLE) :=
  ⟨(claim_C4 (Config.mk none none none ("db")) Yaml.null).1 rfl,
   (claim_C4 (Config.mk none none none ("db"))
     (Yaml.map [(("other"), Yaml.null)])).2 [(("other"), Yaml.null)] rfl rfl rfl⟩

/-- Claim C9: a root whose `migration` key is bound to a falsy value
(e.g. an empty mapping) fails with exactly the same
`'migration' key is missing` ParseError as a root with no `migration`
key at all. -/
theorem claim_C9 :
    (∀ (config : Config) (root : List (String × Yaml)) (w : Yaml),
      (Yaml.map root).truthy = true →
      lookupY root ("migration") = some w →
      w.truthy = false →
      parse config (Yaml.map root)
        = Except.error (Err.parseError migrationMissingMsg YAML_EXAMPLE))
    ∧ (∀ (config : Config) (root : List (String × Yaml)),
      (Yaml.map root).truthy = true →
      lookupY root ("migration") = none →
      parse config (Yaml.map root)
        = Except.error (Err.parseError migrationMissingMsg YAML_EXAMPLE)) := by
  constructor
  · intro config root w htr hlk hw
    have hget : optGet root ("migration") = w := by
      unfold optGet
      rw [hlk]
      rfl
    exact parse_migration_falsy htr (by rw [hget, hw])
  · intro config root htr hlk
    have hget : optGet root ("migration") = Yaml.null := by
      unfold optGet
      rw [hlk]
      rfl
    exact parse_migration_falsy htr (by rw [hget]; rfl)

/-- Witness for C9: `{migration: {}}` raises the missing-key error even
though the key is present. -/
theorem claim_C9_witness :
    parse (Config.mk none none none ("db"))
        (Yaml.map [(("migration"), Yaml.map [])])
      = Except.error (Err.parseError migrationMissingMsg YAML_EXAMPLE) :=
  claim_C9.1 (Config.mk none none none ("db")) [(("migration"), Yaml.map [])]
    (Yaml.map []) rfl rfl rfl

/-- Counterexample to C7 as stated: the document
`{migration: {versions: {}}}` binds `versions` to a value that is not a
sequence, yet `parse` succeeds with an empty plan instead of failing
with a SchemaError (the source coerces any falsy `versions` value to
`[]` before the `isinstance` check). -/
theorem claim_C7_counterexample :
    parse (Config.mk none none none ("db"))
        (Yaml.map [(("migration"), Yaml.map [(("versions"), Yaml.map [])])])
      = Except.ok (Migration.mk [])
    ∧ ∀ msg ex,
      parse (Config.mk none none none ("db"))
          (Yaml.map [(("migration"), Yaml.map [(("versions"), Yaml.map [])])])
        ≠ Except.error (Err.parseError msg ex) := by
  refine ⟨rfl, ?_⟩
  intro msg ex h
  have hok : parse (Config.mk none none none ("db"))
      (Yaml.map [(("migration"), Yaml.map [(("versions"), Yaml.map [])])])
      = Except.ok (Migration.mk []) := rfl
  rw [hok] at h
  exact Except.noConfusion h

/-- Claim C7, amended: when `versions` is present with a truthy value
that is not a sequence (and parsing reaches version handling), `parse`
fails with the `'versions' key must be a list` ParseError; a falsy
non-sequence value is treated as absent instead. -/
theorem claim_C7 :
    ∀ (config : Config) (root migkvs : List (String × Yaml)) (w : Yaml)
      (opts : MigrationOption),
    (Yaml.map root).truthy = true →
    optGet root ("migration") = Yaml.map migkvs →
    (Yaml.map migkvs).truthy = true →
    keysOutside migkvs [("options"), ("versions")] = [] →
    parse_options config migkvs = Except.ok opts →
    optGet migkvs ("versions") = w →
    w.truthy = true →
    (∀ xs, w ≠ Yaml.seq xs) →
    parse config (Yaml.map root)
      = Except.error (Err.parseError (keyMustBeListMsg ("versions")) YAML_EXAMPLE) := by
  intro config root migkvs w opts htr hmig htm hkeys hopts hv ht hns
  rw [parse_map config root htr, parse_root_steps config hmig htm hkeys,
    parse_migrations_steps config hopts, parse_versions_truthy_nonseq hv ht hns]

/-- Witness for the amended C7: `{migration: {versions: "x"}}` fails
with the must-be-a-list error. -/
theorem claim_C7_witness :
    parse (Config.mk none none none ("db"))
        (Yaml.map [(("migration"), Yaml.map [(("versions"), Yaml.str ("x"))])])
      = Except.error (Err.parseError (keyMustBeListMsg ("versions")) YAML_EXAMPLE) :=
  claim_C7 (Config.mk none none none ("db"))
    [(("migration"), Yaml.map [(("versions"), Yaml.str ("x"))])]
    [(("versions"), Yaml.str ("x"))] (Yaml.str ("x"))
    (MigrationOption.mk Yaml.null [] ("db") (Yaml.str ("")))
    rfl rfl rfl rfl rfl rfl rfl (fun _ h => Yaml.noConfusion h)

/-- The external configuration used by the C1 witness. -/
def c1cfg : Config := Config.mk none none none ("db")

/-- The single version entry of the C1 witness document. -/
def c1vnode : Yaml := Yaml.map [(("version"), Yaml.str ("0.0.1"))]

/-- The `migration` node of the C1 witness document. -/
def c1mig : List (String × Yaml) := [(("versions"), Yaml.seq [c1vnode])]

/-- The root of the C1 witness document. -/
def c1root : List (String × Yaml) := [(("migration"), Yaml.map c1mig)]

/-- The plan the C1 witness document parses to. -/
def c1plan : Migration :=
  Migration.mk [Version.mk (Yaml.str ("0.0.1"))
    (MigrationOption.mk Yaml.null [] ("db") (Yaml.str (""))) [] []]

/-- Claim C1: a successful parse yields one Version per entry of the
`versions` sequence, in document order (each plan entry is the parse of
the corresponding document entry); and when `versions` is absent (null)
or the empty list, `parse` succeeds with an empty plan instead of
failing. -/
theorem claim_C1 :
    (∀ (config : Config) (root migkvs : List (String × Yaml)) (vs : List Yaml)
      (m : Migration),
      parse config (Yaml.map root) = Except.ok m →
      optGet root ("migration") = Yaml.map migkvs →
      optGet migkvs ("versions") = Yaml.seq vs →
      m.versions.length = vs.length
      ∧ ∃ opts, parse_options config migkvs = Except.ok opts
        ∧ ∀ (i : Nat) (h1 : i < vs.length) (h2 : i < m.versions.length),
            parse_version (vs.get ⟨i, h1⟩) opts
              = Except.ok (m.versions.get ⟨i, h2⟩))
    ∧ (∀ (config : Config) (root migkvs : List (String × Yaml))
        (opts : MigrationOption),
      (Yaml.map root).truthy = true →
      optGet root ("migration") = Yaml.map migkvs →
      (Yaml.map migkvs).truthy = true →
      keysOutside migkvs [("options"), ("versions")] = [] →
      parse_options config migkvs = Except.ok opts →
      (optGet migkvs ("versions") = Yaml.null
        ∨ optGet migkvs ("versions") = Yaml.seq []) →
      parse config (Yaml.map root) = Except.ok (Migration.mk [])) := by
  constructor
  · intro config root migkvs vs m h hmig hvers
    by_cases htr : (Yaml.map root).truthy = true
    case neg =>
      unfold parse at h
      rw [truthy_of_ne_true htr] at h
      exact Except.noConfusion h
    rw [parse_map config root htr] at h
    unfold parse_root at h
    rw [hmig] at h
    by_cases htm : (Yaml.map migkvs).truthy = true
    case neg =>
      rw [truthy_of_ne_true htm] at h
      exact Except.noConfusion h
    rw [htm] at h
    have h2 : (match check_dict_expected_keys [("options"), ("versions")]
        (Yaml.map migkvs) ("migration") with
      | Except.error e => Except.error e
      | Except.ok migkvs => parse_migrations config migkvs) = Except.ok m := h
    clear h
    by_cases hkeys : keysOutside migkvs [("options"), ("versions")] = []
    case neg =>
      rw [check_map_err ("migration") hkeys] at h2
      exact Except.noConfusion h2
    rw [check_ok_of_keys ("migration") hkeys] at h2
    have h3 : parse_migrations config migkvs = Except.ok m := h2
    clear h2
    unfold parse_migrations at h3
    cases ho : parse_options config migkvs with
    | error e => rw [ho] at h3; exact Except.noConfusion h3
    | ok opts =>
      rw [ho] at h3
      have h4 : (match parse_versions migkvs opts with
        | Except.ok versions => Except.ok (Migration.mk versions)
        | Except.error e => Except.error e) = Except.ok m := h3
      clear h3
      rw [parse_versions_seq hvers] at h4
      cases hm : mapExcept (fun v => parse_version v opts) vs with
      | error e => rw [hm] at h4; exact Except.noConfusion h4
      | ok versions =>
        rw [hm] at h4
        injection h4 with h4
        subst h4
        obtain ⟨hlen, hidx⟩ := mapExcept_ok hm
        exact ⟨hlen, opts, rfl, fun i h1 h2 => hidx i h1 h2⟩
  · intro config root migkvs opts htr hmig htm hkeys hopts hempty
    rw [parse_map config root htr, parse_root_steps config hmig htm hkeys,
      parse_migrations_steps config hopts, parse_versions_falsy hempty]

/-- Witness for C1: a one-entry document parses to a one-entry plan
whose single Version is the parse of the single document entry. -/
theorem claim_C1_witness :
    c1plan.versions.length = ([c1vnode] : List Yaml).length
    ∧ ∃ opts, parse_options c1cfg c1mig = Except.ok opts
      ∧ ∀ (i : Nat) (h1 : i < ([c1vnode] : List Yaml).length)
          (h2 : i < c1plan.versions.length),
          parse_version (([c1vnode] : List Yaml).get ⟨i, h1⟩) opts
            = Except.ok (c1plan.versions.get ⟨i, h2⟩) :=
  claim_C1.1 c1cfg c1root c1mig [c1vnode] c1plan rfl rfl rfl

/-- Claim C8: parsing is deterministic — two parses of the same loaded
document under the same external configuration yield the same plan,
hence equal version identifiers, option records and scoped action logs
in the same order. -/
theorem claim_C8 :
    ∀ (config : Config) (doc : Yaml) (m1 m2 : Migration),
    parse config doc = Except.ok m1 → parse config doc = Except.ok m2 →
    m1 = m2
    ∧ m1.versions.map Version.number = m2.versions.map Version.number
    ∧ m1.versions.map Version.options = m2.versions.map Version.options
    ∧ m1.versions.map Version.operations = m2.versions.map Version.operations
    ∧ m1.versions.map Version.addons = m2.versions.map Version.addons := by
  intro config doc m1 m2 h1 h2
  rw [h1] at h2
  injection h2 with h2
  subst h2
  exact ⟨rfl, rfl, rfl, rfl, rfl⟩

/-- Witness for C8: two parses of `{migration: {versions: []}}` agree. -/
theorem claim_C8_witness :
    Migration.mk [] = Migration.mk []
    ∧ (Migration.mk []).versions.map Version.number
        = (Migration.mk []).versions.map Version.number
    ∧ (Migration.mk []).versions.map Version.options
        = (Migration.mk []).versions.map Version.options
    ∧ (Migration.mk []).versions.map Version.operations
        = (Migration.mk []).versions.map Version.operations
    ∧ (Migration.mk []).versions.map Version.addons
        = (Migration.mk []).versions.map Version.addons :=
  claim_C8 (Config.mk none none none ("db"))
    (Yaml.map [(("migration"), Yaml.map [(("versions"), Yaml.seq [])])])
    (Migration.mk []) (Migration.mk []) rfl rfl

end Marabunta
